import Mathlib

/-!
# Verification of ESP32-OTA-Pull (`src/ESP32OTAPull.h`)

A shallow embedding of the two cores of the library:

* the manifest-matching decision loop in `CheckForOTAUpdate`
  (lines 310–342 of the header), and
* the streaming flash-write loop in `DoOTAUpdate` (lines 110–168).

Machine strings (Arduino `String`) are modelled as Lean `String`; the
`operator>` of Arduino `String` is byte-wise `strcmp`, which on the
NUL-free byte strings it is applied to agrees with Lean's lexicographic
`String` order.  `int` arithmetic is modelled with `Int` where sign
matters (`totalLength` can be `-1`), and with `Nat` for the
only-increasing byte counter `offset`.
-/

namespace ESP32OTAPull

/-! ## Error codes (the `ErrorCode` enum, line 41) -/

def UPDATE_AVAILABLE : Int := -3
def NO_UPDATE_PROFILE_FOUND : Int := -2
def NO_UPDATE_AVAILABLE : Int := -1
def UPDATE_OK : Int := 0
def HTTP_FAILED : Int := 1
def WRITE_ERROR : Int := 2
def JSON_PROBLEM : Int := 3
def OTA_UPDATE_FAIL : Int := 4

/-- The `ActionType` enum (line 38). -/
inductive ActionType where
  | DONT_DO_UPDATE
  | UPDATE_BUT_NO_BOOT
  | UPDATE_AND_BOOT
deriving DecidableEq, Repr

/-! ## Manifest data model -/

/-- One element of the manifest's `"Configurations"` array.  A field that
is absent (or JSON `null`) is `none`; the code turns it into the empty
string (lines 326–329), modelled by `getD ""` below. -/
structure ConfigEntry where
  Board : Option String
  Device : Option String
  Version : Option String
  Config : Option String
  URL : String
deriving DecidableEq, Repr

/-- The device identity the loop compares against: the `_Board`,
`_Device`, `_Config` locals of lines 310–312 after defaulting. -/
structure DeviceIdentity where
  board : String
  device : String
  config : String
deriving DecidableEq, Repr

def entryBoard (e : ConfigEntry) : String := e.Board.getD ""
def entryDevice (e : ConfigEntry) : String := e.Device.getD ""
def entryVersion (e : ConfigEntry) : String := e.Version.getD ""
def entryConfig (e : ConfigEntry) : String := e.Config.getD ""

/-- The profile-match test of lines 331–333:
`(CBoard.isEmpty() || CBoard == _Board) && (CDevice.isEmpty() || CDevice == _Device) && (CConfig.isEmpty() || CConfig == _Config)`. -/
def matchesProfile (e : ConfigEntry) (id : DeviceIdentity) : Bool :=
  (entryBoard e == "" || entryBoard e == id.board) &&
  (entryDevice e == "" || entryDevice e == id.device) &&
  (entryConfig e == "" || entryConfig e == id.config)

/-- Lexicographic (`strcmp`-style) comparison on character lists:
precisely the order Arduino `String::operator>` applies on line 335. -/
def charsLt : List Char → List Char → Bool
  | [], [] => false
  | [], _ :: _ => true
  | _ :: _, [] => false
  | a :: as, b :: bs => if a < b then true else if b < a then false else charsLt as bs

/-- `a` compares strictly below `b` under `strcmp`. -/
def stringLt (a b : String) : Bool := charsLt a.data b.data

/-- The version-qualification test of lines 335–336:
`CVersion.isEmpty() || CVersion > String(CurrentVersion) || (DowngradesAllowed && CVersion != String(CurrentVersion))`. -/
def qualifiesVersion (cv : String) (cur : String) (dg : Bool) : Bool :=
  cv == "" || stringLt cur cv || (dg && cv != cur)

/-- The decision outcome of the matching loop (before it is mapped to a
numeric code / a `DoOTAUpdate` call on line 337 resp. line 342). -/
inductive MatchOutcome where
  | UpdateAvailable (url : String)
  | NoUpdate
  | NoProfile
deriving DecidableEq, Repr

/-- Result of the matching loop: the decision, plus the value the member
field `CVersion` holds when the loop is over (the loop assigns `CVersion`
on line 328 for every entry it examines, matching or not). -/
structure EvalResult where
  outcome : MatchOutcome
  CVersion : String
deriving DecidableEq, Repr

/-- The `for (auto config : doc["Configurations"])` loop of lines
324–342, one call per remaining entry.  `cv` is the current value of the
`CVersion` member, `found` the `foundProfile` flag (line 313). -/
def evalLoop (id : DeviceIdentity) (cur : String) (dg : Bool) :
    List ConfigEntry → String → Bool → EvalResult
  | [], cv, found =>
    ⟨if found then .NoUpdate else .NoProfile, cv⟩
  | e :: rest, _, found =>
    let cv := entryVersion e
    if matchesProfile e id then
      if qualifiesVersion cv cur dg then
        ⟨.UpdateAvailable e.URL, cv⟩
      else
        evalLoop id cur dg rest cv true
    else
      evalLoop id cur dg rest cv found

/-- The whole manifest evaluation: the loop started with
`foundProfile = false` and the `CVersion` member holding `cv₀`. -/
def evaluateManifest (id : DeviceIdentity) (cur : String) (dg : Bool)
    (entries : List ConfigEntry) (cv₀ : String) : EvalResult :=
  evalLoop id cur dg entries cv₀ false

/-! ## Spec-side restatements (for the refinement claims) -/

/-- An entry both matches on board/device/config and qualifies by
version. -/
def entryQualifies (id : DeviceIdentity) (cur : String) (dg : Bool)
    (e : ConfigEntry) : Bool :=
  matchesProfile e id && qualifiesVersion (entryVersion e) cur dg

/-- The outcome as §4.1 of the spec words it: the first qualifying entry
in document order wins; otherwise `NoUpdate` if some entry matched on
board/device/config, else `NoProfile`. -/
def specOutcome (id : DeviceIdentity) (cur : String) (dg : Bool)
    (entries : List ConfigEntry) : MatchOutcome :=
  match entries.find? (entryQualifies id cur dg) with
  | some e => .UpdateAvailable e.URL
  | none =>
    if entries.any (fun e => matchesProfile e id) then .NoUpdate
    else .NoProfile

/-- The version field of the last entry of the list, or the default for
an empty list. -/
def lastVersionD : List ConfigEntry → String → String
  | [], cv => cv
  | e :: rest, _ => lastVersionD rest (entryVersion e)

/-- What the `CVersion` member holds after the loop: the version of the
first qualifying entry if one exists, else the version of the last
examined (= last) entry, else the initial value. -/
def specCVersion (id : DeviceIdentity) (cur : String) (dg : Bool)
    (entries : List ConfigEntry) (cv₀ : String) : String :=
  match entries.find? (entryQualifies id cur dg) with
  | some e => entryVersion e
  | none => lastVersionD entries cv₀

/-! ## The streaming flash-write loop (`DoOTAUpdate`, lines 110–168)

The network source is modelled operationally: `arrivals` is the list of
byte counts that arrive on the socket between successive polls of the
loop, `pending` the bytes already arrived but not yet read.
`stream->available()` (line 136) returns `pending` plus the arrival
consumed by the current poll; `http.connected()` (line 134) is true
while bytes remain buffered or still to arrive.  `readBytes` (line 140)
returns the `bytes_to_read` it was asked for, since at most
`sizeAvail` bytes are requested.  The flash sink `Update.write`
(line 141) is a function from the call ordinal and the byte count handed
to it, to the byte count it reports written. -/

/-- Trace of one run of the `while` loop of lines 134–151:
final `offset`, the `(bytes_read, bytes_written)` of each `Update.write`
call, the `offset` argument of each progress-callback call (line 149),
and whether the loop ended through the short-write `break` (line 145). -/
structure LoopTrace where
  offset : Nat
  writes : List (Nat × Nat)
  callbacks : List Nat
  broke : Bool
deriving DecidableEq, Repr

/-- `sizeof(buff)` on line 139: the scratch buffer holds 1280 bytes. -/
def BUFF_SIZE : Nat := 1280

/-- `stream->available()` at the top of an iteration: the bytes already
buffered plus those arriving with the current poll. -/
def sizeAvailAt (pending : Nat) (arrivals : List Nat) : Nat :=
  pending + arrivals.headD 0

/-- `bytes_to_read = min(sizeAvail, sizeof(buff))`, line 139. -/
def bytesToRead (pending : Nat) (arrivals : List Nat) : Nat :=
  min (sizeAvailAt pending arrivals) BUFF_SIZE

/-- The `while (http.connected() && offset < totalLength)` loop of lines
134–151.  `w ord n` is what `Update.write` returns on its `ord`-th call
when handed `n` bytes; `readBytes` returns the full `bytes_to_read`
because at most `sizeAvail` bytes are requested. -/
def streamLoop (w : Nat → Nat → Nat) (totalLength : Int)
    (pending : Nat) (arrivals : List Nat) (offset : Nat) (ord : Nat) :
    LoopTrace :=
  if h : (0 < pending ∨ arrivals ≠ []) ∧ (offset : Int) < totalLength then
    if h2 : 0 < sizeAvailAt pending arrivals then
      if bytesToRead pending arrivals ≠ w ord (bytesToRead pending arrivals) then
        ⟨offset, [(bytesToRead pending arrivals, w ord (bytesToRead pending arrivals))],
         [], true⟩
      else
        let t := streamLoop w totalLength
          (sizeAvailAt pending arrivals - bytesToRead pending arrivals) arrivals.tail
          (offset + w ord (bytesToRead pending arrivals)) (ord + 1)
        ⟨t.offset,
         (bytesToRead pending arrivals, w ord (bytesToRead pending arrivals)) :: t.writes,
         (offset + w ord (bytesToRead pending arrivals)) :: t.callbacks, t.broke⟩
    else
      streamLoop w totalLength (sizeAvailAt pending arrivals) arrivals.tail offset ord
  else
    ⟨offset, [], [], false⟩
termination_by (arrivals.length, pending)
decreasing_by
  · rcases arrivals with _ | ⟨a, t⟩
    · apply Prod.Lex.right
      simp only [sizeAvailAt, bytesToRead, List.headD_nil, Nat.add_zero,
        List.tail_nil] at h2 ⊢
      exact Nat.sub_lt h2 (lt_min_iff.mpr ⟨h2, by norm_num [BUFF_SIZE]⟩)
    · apply Prod.Lex.left
      simp only [List.tail_cons, List.length_cons]
      omega
  · rcases arrivals with _ | ⟨a, t⟩
    · exfalso
      simp only [sizeAvailAt, List.headD_nil, Nat.add_zero] at h2
      exact h2 (h.1.resolve_right (fun hc => hc rfl))
    · apply Prod.Lex.left
      simp only [List.tail_cons, List.length_cons]
      omega

/-- The environment one `DoOTAUpdate` call runs in: the status code the
payload `http.GET()` returns (line 116), its reported size (line 120),
whether `Update.begin` succeeds (line 123), the arrival schedule of the
socket, and the behaviour of `Update.write`. -/
structure OTAWorld where
  payloadCode : Int
  totalLength : Int
  beginOk : Bool
  arrivals : List Nat
  write : Nat → Nat → Nat

/-- Observable result of `DoOTAUpdate`: the returned code (`restarted`
marks the path that never returns because of `ESP.restart()`, line 161),
the arguments of every `Update.end` call (the storage `commit`), and the
loop trace. -/
structure OTAResult where
  code : Int
  restarted : Bool
  commits : List Bool
  writes : List (Nat × Nat)
  callbacks : List Nat
  offset : Nat
deriving DecidableEq, Repr

/-- `DoOTAUpdate(URL, Action)`, lines 110–168.  The `URL` argument only
feeds the transport, whose reply `w` already fixes. -/
def DoOTAUpdate (_URL : String) (w : OTAWorld) (action : ActionType) :
    OTAResult :=
  if w.payloadCode = 200 then
    if w.beginOk = false then
      ⟨OTA_UPDATE_FAIL, false, [], [], [], 0⟩
    else
      let t := streamLoop w.write w.totalLength 0 w.arrivals 0 0
      if (t.offset : Int) = w.totalLength then
        if action = .UPDATE_BUT_NO_BOOT then
          ⟨UPDATE_OK, false, [true], t.writes, t.callbacks, t.offset⟩
        else
          ⟨UPDATE_OK, true, [true], t.writes, t.callbacks, t.offset⟩
      else
        ⟨WRITE_ERROR, false, [], t.writes, t.callbacks, t.offset⟩
  else
    ⟨w.payloadCode, false, [], [], [], 0⟩

/-! ## The composite entry point (`CheckForOTAUpdate`, lines 267–343) -/

/-- Observable result of a `CheckForOTAUpdate` call: the returned code,
the `CVersion` member afterwards, and, when `DoOTAUpdate` was invoked,
its observable result. -/
structure CheckResult where
  code : Int
  CVersion : String
  ota : Option OTAResult
deriving Repr

/-- `CheckForOTAUpdate(JSON_URL, CurrentVersion, Action)`, lines 267–343.
`manifestCode` is what `http.GET()` returns for the manifest fetch
(line 275); `parsed` is the deserialized `"Configurations"` array, or
`none` when `deserializeJson` fails (line 302); `CurrentVersion` is
`Option String` because the C argument is a possibly-NULL `const char *`,
nulled-out to `""` on line 269; `cv₀` is the value the `CVersion` member
holds on entry; `world` is the environment a `DoOTAUpdate` call would
run in. -/
def CheckForOTAUpdate (manifestCode : Int)
    (parsed : Option (List ConfigEntry)) (id : DeviceIdentity)
    (CurrentVersion : Option String) (dg : Bool) (action : ActionType)
    (world : OTAWorld) (cv₀ : String) : CheckResult :=
  let cur := CurrentVersion.getD ""
  if manifestCode ≠ 200 then
    ⟨if manifestCode > 0 then manifestCode else HTTP_FAILED, cv₀, none⟩
  else
    match parsed with
    | none => ⟨JSON_PROBLEM, cv₀, none⟩
    | some entries =>
      let r := evalLoop id cur dg entries cv₀ false
      match r.outcome with
      | .UpdateAvailable url =>
        if action = .DONT_DO_UPDATE then
          ⟨UPDATE_AVAILABLE, r.CVersion, none⟩
        else
          let o := DoOTAUpdate url world action
          ⟨o.code, r.CVersion, some o⟩
      | .NoUpdate => ⟨NO_UPDATE_AVAILABLE, r.CVersion, none⟩
      | .NoProfile => ⟨NO_UPDATE_PROFILE_FOUND, r.CVersion, none⟩

/-! ## Concrete environments used in closed statements -/

/-- A payload world with an empty 0-byte body and a fully-working sink. -/
def trivialWorld : OTAWorld := ⟨200, 0, true, [], fun _ n => n⟩

/-- A 5-byte payload delivered in one chunk to a sink that accepts every
byte: a run that reaches `offset == totalLength`. -/
def fullSinkWorld : OTAWorld := ⟨200, 5, true, [5], fun _ n => n⟩

/-- A 10-byte payload whose sink reports one byte fewer than handed on
every write. -/
def shortWriteWorld : OTAWorld := ⟨200, 10, true, [10], fun _ n => n - 1⟩

/-- A payload whose length the transport reports as unknown
(`http.getSize()` returns `-1`) while 7 bytes are ready on the socket. -/
def unknownLengthWorld : OTAWorld := ⟨200, -1, true, [7], fun _ n => n⟩

/-! ## Theorems: the string order -/

theorem charsLt_iff : ∀ (as bs : List Char), charsLt as bs = true ↔ as < bs := by
  intro as
  induction as with
  | nil =>
    intro bs
    cases bs with
    | nil =>
      simp only [charsLt]
      constructor
      · intro h; exact absurd h (by decide)
      · intro h; cases h
    | cons b bs =>
      simp only [charsLt]
      constructor
      · intro _; exact List.Lex.nil
      · intro _; trivial
  | cons a as ih =>
    intro bs
    cases bs with
    | nil =>
      simp only [charsLt]
      constructor
      · intro h; exact absurd h (by decide)
      · intro h; cases h
    | cons b bs =>
      simp only [charsLt]
      by_cases h1 : a < b
      · simp only [h1, if_true]
        constructor
        · intro _; exact List.Lex.rel h1
        · intro _; trivial
      · by_cases h2 : b < a
        · simp only [h1, h2, if_true, if_false]
          constructor
          · intro h; exact absurd h (by decide)
          · intro h
            cases h with
            | cons h => exact absurd h2 (lt_irrefl _)
            | rel h => exact absurd h h1
        · simp only [h1, h2, if_false]
          have hab : a = b := le_antisymm (not_lt.mp h2) (not_lt.mp h1)
          subst hab
          rw [ih bs]
          constructor
          · intro h; exact List.Lex.cons h
          · intro h
            cases h with
            | cons h => exact h
            | rel h => exact absurd h h1

/-- `stringLt` decides Lean's lexicographic order on `String`. -/
theorem stringLt_iff (a b : String) : stringLt a b = true ↔ a < b := by
  rw [stringLt, charsLt_iff, String.lt_iff_toList_lt]
  exact Iff.rfl

/-! ## Theorems: the manifest-matching loop -/

/-- The loop's decision is the first-qualifying-entry decision, with the
`foundProfile` flag folded into the fallback. -/
theorem evalLoop_outcome (id : DeviceIdentity) (cur : String) (dg : Bool) :
    ∀ (entries : List ConfigEntry) (cv : String) (found : Bool),
    (evalLoop id cur dg entries cv found).outcome =
      (match entries.find? (entryQualifies id cur dg) with
       | some e => MatchOutcome.UpdateAvailable e.URL
       | none =>
         if found || entries.any (fun e => matchesProfile e id) then
           MatchOutcome.NoUpdate
         else MatchOutcome.NoProfile) := by
  intro entries
  induction entries with
  | nil => intro cv found; simp [evalLoop]
  | cons e rest ih =>
    intro cv found
    by_cases hm : matchesProfile e id
    · by_cases hq : qualifiesVersion (entryVersion e) cur dg
      · simp [evalLoop, hm, hq, entryQualifies, List.find?]
      · simp [evalLoop, hm, hq, entryQualifies, List.find?, ih]
    · simp [evalLoop, hm, entryQualifies, List.find?, ih]

/-- The `CVersion` member after the loop: version of the first
qualifying entry, else of the last examined entry, else unchanged. -/
theorem evalLoop_cversion (id : DeviceIdentity) (cur : String) (dg : Bool) :
    ∀ (entries : List ConfigEntry) (cv : String) (found : Bool),
    (evalLoop id cur dg entries cv found).CVersion =
      (match entries.find? (entryQualifies id cur dg) with
       | some e => entryVersion e
       | none => lastVersionD entries cv) := by
  intro entries
  induction entries with
  | nil => intro cv found; simp [evalLoop, lastVersionD]
  | cons e rest ih =>
    intro cv found
    by_cases hm : matchesProfile e id
    · by_cases hq : qualifiesVersion (entryVersion e) cur dg
      · simp [evalLoop, hm, hq, entryQualifies, List.find?, lastVersionD]
      · simp [evalLoop, hm, hq, entryQualifies, List.find?, ih, lastVersionD]
    · simp [evalLoop, hm, entryQualifies, List.find?, ih, lastVersionD]

/-- Sanity check: `lastVersionD` is the last version field of the list
(the default only for the empty list). -/
theorem lastVersionD_eq_getLastD :
    ∀ (entries : List ConfigEntry) (cv : String),
    lastVersionD entries cv = (entries.map entryVersion).getLastD cv := by
  intro entries
  induction entries with
  | nil => intro cv; rfl
  | cons e rest ih =>
    intro cv
    rw [lastVersionD, ih, List.map_cons, List.getLastD_cons]

/-- C1: for every parsed manifest and device identity the evaluation
returns exactly one outcome, in a single document-order pass: the first
entry that matches on board/device/config and qualifies by version
yields `UpdateAvailable` with that entry's URL (later entries are not
considered); otherwise `NoUpdate` when at least one entry matched on
board/device/config, else `NoProfile` (including the empty list). -/
theorem first_qualifying_entry_decides (id : DeviceIdentity)
    (cur : String) (dg : Bool) (entries : List ConfigEntry)
    (cv₀ : String) :
    (evaluateManifest id cur dg entries cv₀).outcome =
      specOutcome id cur dg entries := by
  rw [evaluateManifest, evalLoop_outcome, specOutcome]
  simp

/-- C2: an entry is a candidate profile iff each of the three fields
board, device id and config tag is the empty string or exactly equal to
the identity's corresponding field. -/
theorem candidate_profile_iff (e : ConfigEntry) (id : DeviceIdentity) :
    matchesProfile e id = true ↔
      (entryBoard e = "" ∨ entryBoard e = id.board) ∧
      (entryDevice e = "" ∨ entryDevice e = id.device) ∧
      (entryConfig e = "" ∨ entryConfig e = id.config) := by
  simp [matchesProfile, and_assoc]

/-- C3: an entry qualifies by version iff its version field is empty, or
its version is lexicographically greater than the current version, or
downgrades are allowed and its version differs from the current version;
in particular, against current version "2" an entry of version "1"
qualifies exactly when downgrades are allowed. -/
theorem version_qualification_iff :
    (∀ (cv cur : String) (dg : Bool),
      qualifiesVersion cv cur dg = true ↔
        (cv = "" ∨ cur < cv ∨ (dg = true ∧ cv ≠ cur))) ∧
    qualifiesVersion "1" "2" true = true ∧
    qualifiesVersion "1" "2" false = false := by
  refine ⟨?_, by decide, by decide⟩
  intro cv cur dg
  simp [qualifiesVersion, stringLt_iff, or_assoc]

/-- C6 counterexample: an entry that does not even match the device
leaves its version in the `CVersion` member: with identity board `"X"`,
the single entry for board `"Y"` is skipped (outcome `NoProfile`) yet
`GetVersion` afterwards reports that entry's version `"9"`, not the
initial value `""`. -/
theorem skipped_entry_overwrites_cversion :
    (evaluateManifest ⟨"X", "D", ""⟩ "" false
        [⟨some "Y", none, some "9", none, "u"⟩] "").outcome =
      MatchOutcome.NoProfile ∧
    (evaluateManifest ⟨"X", "D", ""⟩ "" false
        [⟨some "Y", none, some "9", none, "u"⟩] "").CVersion = "9" ∧
    (evaluateManifest ⟨"X", "D", ""⟩ "" false
        [⟨some "Y", none, some "9", none, "u"⟩] "").CVersion ≠ "" := by
  refine ⟨rfl, rfl, ?_⟩
  decide

/-- C6 amended: the loop overwrites `CVersion` with the version field of
every entry it examines; when it returns `UpdateAvailable` the recorded
version is the matched entry's, but otherwise `CVersion` is left holding
the version of the last examined entry (the initial value only for an
empty list). -/
theorem cversion_records_last_examined (id : DeviceIdentity)
    (cur : String) (dg : Bool) (entries : List ConfigEntry)
    (cv₀ : String) :
    (evaluateManifest id cur dg entries cv₀).CVersion =
      specCVersion id cur dg entries cv₀ := by
  rw [evaluateManifest, evalLoop_cversion, specCVersion]

/-! ## Theorems: the streaming loop -/

theorem headD_add_tail_sum (l : List Nat) : l.headD 0 + l.tail.sum = l.sum := by
  cases l <;> simp

theorem dropLast_cons_subset {α : Type} (x : α) (l : List α) :
    (x :: l).dropLast ⊆ x :: l.dropLast := by
  cases l <;> simp [List.dropLast]

/-- Invariant of the loop when the sink accepts every byte it is handed:
starting from `offset + pending + arrivals.sum = N` bytes accounted for,
the loop ends at `offset = N`, writes exactly the remaining bytes in
nonempty chunks of at most `BUFF_SIZE`, fires the callback once per
write with strictly increasing offsets, and the last callback reports
`N`. -/
theorem streamLoop_full (w : Nat → Nat → Nat) (N : Nat) (hw : ∀ k n, w k n = n) :
    ∀ (pending : Nat) (arrivals : List Nat) (offset ord : Nat),
    offset + pending + arrivals.sum = N →
    ((streamLoop w (N : Int) pending arrivals offset ord).offset = N ∧
     (((streamLoop w (N : Int) pending arrivals offset ord).writes.map Prod.fst).sum
        = pending + arrivals.sum ∧
      (∀ p ∈ (streamLoop w (N : Int) pending arrivals offset ord).writes,
        p.2 = p.1 ∧ 0 < p.1 ∧ p.1 ≤ BUFF_SIZE) ∧
      (streamLoop w (N : Int) pending arrivals offset ord).callbacks.length
        = (streamLoop w (N : Int) pending arrivals offset ord).writes.length ∧
      (streamLoop w (N : Int) pending arrivals offset ord).broke = false ∧
      List.Chain' (· < ·)
        (offset :: (streamLoop w (N : Int) pending arrivals offset ord).callbacks) ∧
      (streamLoop w (N : Int) pending arrivals offset ord).callbacks.getLastD offset
        = N)) := by
  intro pending arrivals offset ord
  induction pending, arrivals, offset, ord using streamLoop.induct w (N : Int) with
  | case1 pending arrivals offset ord h h2 hne =>
    intro _
    exact absurd (hw ord _).symm hne
  | case2 pending arrivals offset ord h h2 hne ih =>
    intro hsum
    rw [streamLoop.eq_def, dif_pos h, dif_pos h2, if_neg hne]
    dsimp only
    have hwr := hw ord (bytesToRead pending arrivals)
    have hmin1 : bytesToRead pending arrivals ≤ sizeAvailAt pending arrivals :=
      min_le_left _ _
    have hmin2 : bytesToRead pending arrivals ≤ BUFF_SIZE := min_le_right _ _
    have hmin3 : 0 < bytesToRead pending arrivals :=
      lt_min_iff.mpr ⟨h2, by norm_num [BUFF_SIZE]⟩
    have hts := headD_add_tail_sum arrivals
    have hA : sizeAvailAt pending arrivals = pending + arrivals.headD 0 := rfl
    rw [hwr] at ih ⊢
    obtain ⟨ih1, ih2, ih3, ih4, ih5, ih6, ih7⟩ := ih (by omega)
    refine ⟨ih1, ?_, ?_, ?_, ih5, ?_, ?_⟩
    · simp only [List.map_cons, List.sum_cons, ih2]
      omega
    · intro p hp
      rcases List.mem_cons.mp hp with rfl | hp
      · exact ⟨rfl, hmin3, hmin2⟩
      · exact ih3 p hp
    · simp [ih4]
    · rw [List.chain'_cons]
      exact ⟨by omega, ih6⟩
    · rw [List.getLastD_cons]
      exact ih7
  | case3 pending arrivals offset ord h h2 ih =>
    intro hsum
    rw [streamLoop.eq_def, dif_pos h, dif_neg h2]
    have hts := headD_add_tail_sum arrivals
    have hA : sizeAvailAt pending arrivals = pending + arrivals.headD 0 := rfl
    rw [show pending + arrivals.sum
        = sizeAvailAt pending arrivals + arrivals.tail.sum by omega]
    exact ih (by omega)
  | case4 pending arrivals offset ord h =>
    intro hsum
    rw [streamLoop.eq_def, dif_neg h]
    have hz : pending = 0 ∧ arrivals.sum = 0 := by
      rcases Decidable.not_and_iff_or_not.mp h with h1 | h1
      · rcases not_or.mp h1 with ⟨hp, ha⟩
        have he : arrivals = [] := by
          by_contra hc; exact ha hc
        subst he
        exact ⟨by omega, by simp⟩
      · have h2 : (N : Int) ≤ (offset : Int) := le_of_not_lt h1
        have h3 : N ≤ offset := by exact_mod_cast h2
        constructor <;> omega
    refine ⟨by show offset = N; omega,
      by simp only [List.map_nil, List.sum_nil]; omega,
      by simp, by simp, rfl, ?_, ?_⟩
    · simp
    · simp only [List.getLastD_nil]
      omega

/-- Invariant of the loop for an arbitrary sink: the final offset never
exceeds the bytes the source can deliver, every callback offset obeys
the same bound, and every `Update.write` call except possibly the final
one wrote exactly what it was handed (the loop breaks at the first
mismatch). -/
theorem streamLoop_bounds (w : Nat → Nat → Nat) (totalLength : Int) :
    ∀ (pending : Nat) (arrivals : List Nat) (offset ord : Nat),
    ((streamLoop w totalLength pending arrivals offset ord).offset
        ≤ offset + pending + arrivals.sum ∧
     (∀ c ∈ (streamLoop w totalLength pending arrivals offset ord).callbacks,
        c ≤ offset + pending + arrivals.sum) ∧
     (∀ p ∈ (streamLoop w totalLength pending arrivals offset ord).writes.dropLast,
        p.1 = p.2)) := by
  intro pending arrivals offset ord
  induction pending, arrivals, offset, ord using streamLoop.induct w totalLength with
  | case1 pending arrivals offset ord h h2 hne =>
    rw [streamLoop.eq_def, dif_pos h, dif_pos h2, if_pos hne]
    refine ⟨by show offset ≤ _; omega, by simp, by simp⟩
  | case2 pending arrivals offset ord h h2 hne ih =>
    rw [streamLoop.eq_def, dif_pos h, dif_pos h2, if_neg hne]
    dsimp only
    have heq : bytesToRead pending arrivals = w ord (bytesToRead pending arrivals) :=
      not_ne_iff.mp hne
    have hmin1 : bytesToRead pending arrivals ≤ sizeAvailAt pending arrivals :=
      min_le_left _ _
    have hts := headD_add_tail_sum arrivals
    have hA : sizeAvailAt pending arrivals = pending + arrivals.headD 0 := rfl
    rw [← heq] at ih ⊢
    obtain ⟨ih1, ih2, ih3⟩ := ih
    refine ⟨by omega, ?_, ?_⟩
    · intro c hc
      rcases List.mem_cons.mp hc with rfl | hc
      · omega
      · have := ih2 c hc
        omega
    · intro p hp
      rcases List.mem_cons.mp (dropLast_cons_subset _ _ hp) with rfl | hp
      · rfl
      · exact ih3 p hp
  | case3 pending arrivals offset ord h h2 ih =>
    rw [streamLoop.eq_def, dif_pos h, dif_neg h2]
    have hts := headD_add_tail_sum arrivals
    have hA : sizeAvailAt pending arrivals = pending + arrivals.headD 0 := rfl
    rw [show offset + pending + arrivals.sum
        = offset + sizeAvailAt pending arrivals + arrivals.tail.sum by omega]
    exact ih
  | case4 pending arrivals offset ord h =>
    rw [streamLoop.eq_def, dif_neg h]
    exact ⟨by show offset ≤ _; omega, by simp, by simp⟩

/-! ## Claim theorems: streaming and transport -/

/-- C7: for a byte source of known total length `N` delivered in
arbitrary chunk sizes (including chunks larger than the scratch buffer),
a run whose sink accepts every byte succeeds: each write is handed at
most `BUFF_SIZE` bytes, the bytes handed to `write` sum to `N`, and the
progress callback fires once per write with a strictly increasing
`offset` ending at `N`. -/
theorem streaming_sums_and_progress (w : Nat → Nat → Nat) (N : Nat)
    (arrivals : List Nat) (hw : ∀ k n, w k n = n)
    (hsum : arrivals.sum = N) :
    (streamLoop w (N : Int) 0 arrivals 0 0).offset = N ∧
    ((streamLoop w (N : Int) 0 arrivals 0 0).writes.map Prod.fst).sum = N ∧
    (∀ p ∈ (streamLoop w (N : Int) 0 arrivals 0 0).writes, p.1 ≤ BUFF_SIZE) ∧
    (streamLoop w (N : Int) 0 arrivals 0 0).callbacks.length
      = (streamLoop w (N : Int) 0 arrivals 0 0).writes.length ∧
    List.Chain' (· < ·) (0 :: (streamLoop w (N : Int) 0 arrivals 0 0).callbacks) ∧
    (streamLoop w (N : Int) 0 arrivals 0 0).callbacks.getLastD 0 = N := by
  obtain ⟨h1, h2, h3, h4, h5, h6, h7⟩ :=
    streamLoop_full w N hw 0 arrivals 0 0 (by omega)
  exact ⟨h1, by rw [h2]; omega, fun p hp => (h3 p hp).2.2, h4, h6, h7⟩

/-- C7 witness: a 2005-byte source arriving as one 2000-byte burst
(larger than the 1280-byte scratch buffer) followed by 5 bytes. -/
theorem streaming_sums_and_progress_witness :
    (streamLoop (fun _ n => n) ((2005 : Nat) : Int) 0 [2000, 5] 0 0).offset = 2005 ∧
    ((streamLoop (fun _ n => n) ((2005 : Nat) : Int) 0 [2000, 5] 0 0).writes.map
        Prod.fst).sum = 2005 ∧
    (∀ p ∈ (streamLoop (fun _ n => n) ((2005 : Nat) : Int) 0 [2000, 5] 0 0).writes,
      p.1 ≤ BUFF_SIZE) ∧
    (streamLoop (fun _ n => n) ((2005 : Nat) : Int) 0 [2000, 5] 0 0).callbacks.length
      = (streamLoop (fun _ n => n) ((2005 : Nat) : Int) 0 [2000, 5] 0 0).writes.length ∧
    List.Chain' (· < ·)
      (0 :: (streamLoop (fun _ n => n) ((2005 : Nat) : Int) 0 [2000, 5] 0 0).callbacks) ∧
    (streamLoop (fun _ n => n) ((2005 : Nat) : Int) 0 [2000, 5] 0 0).callbacks.getLastD 0
      = 2005 :=
  streaming_sums_and_progress (fun _ n => n) 2005 [2000, 5] (fun _ _ => rfl) (by decide)

/-- C8: with a known total length `N` the written offset never exceeds
`N` — neither at the end nor at any progress callback — provided the
source delivers at most the announced `N` bytes; and only the final
`Update.write` call of a run can be a short one: the loop breaks the
instant a write reports a count different from what it was handed, so no
write call ever follows it. -/
theorem written_bounded_short_write_final (w : Nat → Nat → Nat) (N : Nat)
    (arrivals : List Nat) (hsum : arrivals.sum ≤ N) :
    (streamLoop w (N : Int) 0 arrivals 0 0).offset ≤ N ∧
    (∀ c ∈ (streamLoop w (N : Int) 0 arrivals 0 0).callbacks, c ≤ N) ∧
    (∀ p ∈ (streamLoop w (N : Int) 0 arrivals 0 0).writes.dropLast, p.1 = p.2) := by
  obtain ⟨h1, h2, h3⟩ := streamLoop_bounds w (N : Int) 0 arrivals 0 0
  refine ⟨by omega, ?_, h3⟩
  intro c hc
  have := h2 c hc
  omega

/-- C8 witness: a 5-byte delivery against an announced length of 10,
with a sink that always reports one byte short. -/
theorem written_bounded_short_write_final_witness :
    (streamLoop (fun _ n => n - 1) ((10 : Nat) : Int) 0 [5] 0 0).offset ≤ 10 ∧
    (∀ c ∈ (streamLoop (fun _ n => n - 1) ((10 : Nat) : Int) 0 [5] 0 0).callbacks,
      c ≤ 10) ∧
    (∀ p ∈ (streamLoop (fun _ n => n - 1) ((10 : Nat) : Int) 0 [5] 0 0).writes.dropLast,
      p.1 = p.2) :=
  written_bounded_short_write_final (fun _ n => n - 1) 10 [5] (by decide)

/-- C4 counterexample: in `shortWriteWorld` the sink's `begin` succeeded
and its first `write` returned 9 of the 10 bytes handed to it; the
operation returns `WRITE_ERROR` but the `Update.end` commit call is
never made — the commit trace is empty, not a single `commit(false)`. -/
theorem short_write_leaves_commit_uncalled :
    (DoOTAUpdate "u" shortWriteWorld ActionType.UPDATE_AND_BOOT).code = WRITE_ERROR ∧
    (DoOTAUpdate "u" shortWriteWorld ActionType.UPDATE_AND_BOOT).writes = [(10, 9)] ∧
    (DoOTAUpdate "u" shortWriteWorld ActionType.UPDATE_AND_BOOT).commits = [] := by
  have hloop : streamLoop (fun _ n => n - 1) (10 : Int) 0 [10] 0 0
      = ⟨0, [(10, 9)], [], true⟩ := by
    rw [streamLoop.eq_def]
    norm_num [sizeAvailAt, bytesToRead, BUFF_SIZE]
  refine ⟨?_, ?_, ?_⟩ <;>
    simp [DoOTAUpdate, shortWriteWorld, hloop]

/-- C4 amended: once `begin` has succeeded, the commit call happens
exactly once and only on the success path: whenever the loop ends with
`offset == totalLength` the commit trace is exactly one `commit(true)`
(before the return or the restart); on every other exit — the
short-write break included — the operation returns `WRITE_ERROR`
without any commit call, leaving the begun storage session open. -/
theorem commit_exactly_once_on_success (URL : String) (w : OTAWorld)
    (a : ActionType) (h200 : w.payloadCode = 200) (hb : w.beginOk = true) :
    ((((DoOTAUpdate URL w a).offset : Int) = w.totalLength →
      (DoOTAUpdate URL w a).commits = [true]) ∧
     (¬(((DoOTAUpdate URL w a).offset : Int) = w.totalLength) →
      (DoOTAUpdate URL w a).commits = [] ∧
      (DoOTAUpdate URL w a).code = WRITE_ERROR)) := by
  unfold DoOTAUpdate
  rw [if_pos h200, if_neg (by rw [hb]; decide)]
  by_cases hoff :
      (((streamLoop w.write w.totalLength 0 w.arrivals 0 0).offset : Int)
        = w.totalLength)
  · rw [if_pos hoff]
    by_cases ha : a = ActionType.UPDATE_BUT_NO_BOOT
    · rw [if_pos ha]
      exact ⟨fun _ => rfl, fun hne => absurd hoff hne⟩
    · rw [if_neg ha]
      exact ⟨fun _ => rfl, fun hne => absurd hoff hne⟩
  · rw [if_neg hoff]
    exact ⟨fun hc => absurd hc hoff, fun _ => ⟨rfl, rfl⟩⟩

/-- C4 witness: a run that does reach `offset == totalLength`
(`fullSinkWorld`, 5 of 5 bytes written) really commits exactly once,
with `true`. -/
theorem commit_exactly_once_on_success_witness :
    (DoOTAUpdate "u" fullSinkWorld ActionType.UPDATE_BUT_NO_BOOT).commits
      = [true] := by
  have hloop : streamLoop (fun _ n => n) (5 : Int) 0 [5] 0 0
      = ⟨5, [(5, 5)], [5], false⟩ := by
    rw [streamLoop.eq_def]
    norm_num [sizeAvailAt, bytesToRead, BUFF_SIZE]
    rw [streamLoop.eq_def]
    norm_num
  exact (commit_exactly_once_on_success "u" fullSinkWorld
      ActionType.UPDATE_BUT_NO_BOOT rfl rfl).1
    (by simp [DoOTAUpdate, fullSinkWorld, hloop])

/-- C5 counterexample: in `unknownLengthWorld` the transport reports the
total length as unknown (`getSize()` = −1) and 7 bytes are waiting on a
connected socket, yet the loop body never runs: nothing is read or
written, no commit happens, and the operation returns `WRITE_ERROR`
instead of streaming until disconnection. -/
theorem unknown_length_nothing_streamed :
    (DoOTAUpdate "u" unknownLengthWorld ActionType.UPDATE_AND_BOOT).code
      = WRITE_ERROR ∧
    (DoOTAUpdate "u" unknownLengthWorld ActionType.UPDATE_AND_BOOT).writes = [] ∧
    (DoOTAUpdate "u" unknownLengthWorld ActionType.UPDATE_AND_BOOT).offset = 0 ∧
    (DoOTAUpdate "u" unknownLengthWorld ActionType.UPDATE_AND_BOOT).commits = [] := by
  have hloop : streamLoop (fun _ n => n) (-1 : Int) 0 [7] 0 0
      = ⟨0, [], [], false⟩ := by
    rw [streamLoop.eq_def]
    norm_num
  refine ⟨?_, ?_, ?_, ?_⟩ <;>
    simp [DoOTAUpdate, unknownLengthWorld, hloop]

/-- C5 amended: when the transport reports the total length as unknown
(`http.getSize()` returns a negative sentinel), the loop condition
`offset < totalLength` is false from the start: zero bytes are read or
written, no commit is made, and `DoOTAUpdate` returns `WRITE_ERROR`
immediately — it does not stream until disconnection. -/
theorem unknown_length_rejected (URL : String) (w : OTAWorld) (a : ActionType)
    (h200 : w.payloadCode = 200) (hb : w.beginOk = true)
    (hneg : w.totalLength < 0) :
    DoOTAUpdate URL w a = ⟨WRITE_ERROR, false, [], [], [], 0⟩ := by
  have hloop : streamLoop w.write w.totalLength 0 w.arrivals 0 0
      = ⟨0, [], [], false⟩ := by
    rw [streamLoop.eq_def, dif_neg]
    intro hcond
    have h1 : ((0 : Nat) : Int) < w.totalLength := hcond.2
    omega
  unfold DoOTAUpdate
  rw [if_pos h200, if_neg (by rw [hb]; decide), hloop]
  rw [if_neg (by show ¬((0 : Nat) : Int) = w.totalLength; omega)]

/-- C5 witness: the amended behaviour at the concrete unknown-length
world. -/
theorem unknown_length_rejected_witness :
    DoOTAUpdate "u" unknownLengthWorld ActionType.UPDATE_AND_BOOT
      = ⟨WRITE_ERROR, false, [], [], [], 0⟩ :=
  unknown_length_rejected "u" unknownLengthWorld ActionType.UPDATE_AND_BOOT rfl rfl
    (by norm_num [unknownLengthWorld])

/-- C9 counterexample: when the manifest `http.GET()` returns the
transport error value −1 (connection failed), the caller does not see −1
but the normalized `HTTP_FAILED` (1): non-positive transport returns are
not surfaced verbatim. -/
theorem negative_transport_not_verbatim :
    (CheckForOTAUpdate (-1) none ⟨"B", "D", ""⟩ none false
        ActionType.UPDATE_AND_BOOT trivialWorld "").code = HTTP_FAILED ∧
    HTTP_FAILED ≠ (-1 : Int) := by
  constructor
  · rfl
  · decide

/-- C9 amended: a positive status code other than 200 is surfaced
verbatim by both the manifest fetch (`CheckForOTAUpdate`) and the
payload fetch (`DoOTAUpdate`), with no retry; a non-positive transport
return is mapped to `HTTP_FAILED` by the manifest fetch, while the
payload fetch passes even those through verbatim. -/
theorem status_passthrough_split (code : Int) (hne : code ≠ 200) :
    (0 < code →
      ∀ (parsed : Option (List ConfigEntry)) (id : DeviceIdentity)
        (cv : Option String) (dg : Bool) (action : ActionType)
        (world : OTAWorld) (cv₀ : String),
        (CheckForOTAUpdate code parsed id cv dg action world cv₀).code = code) ∧
    (code ≤ 0 →
      ∀ (parsed : Option (List ConfigEntry)) (id : DeviceIdentity)
        (cv : Option String) (dg : Bool) (action : ActionType)
        (world : OTAWorld) (cv₀ : String),
        (CheckForOTAUpdate code parsed id cv dg action world cv₀).code
          = HTTP_FAILED) ∧
    (∀ (URL : String) (world : OTAWorld) (action : ActionType),
      world.payloadCode = code →
      (DoOTAUpdate URL world action).code = code) := by
  refine ⟨?_, ?_, ?_⟩
  · intro hpos parsed id cv dg action world cv₀
    unfold CheckForOTAUpdate
    rw [if_pos hne, if_pos hpos]
  · intro hnonpos parsed id cv dg action world cv₀
    unfold CheckForOTAUpdate
    rw [if_pos hne, if_neg (by omega)]
  · intro URL world action hcode
    unfold DoOTAUpdate
    rw [if_neg (by omega)]
    exact hcode

/-- C9 witness: a 404 on the manifest fetch reaches the caller as 404. -/
theorem status_passthrough_split_witness :
    (CheckForOTAUpdate 404 none ⟨"B", "D", ""⟩ none false
        ActionType.UPDATE_AND_BOOT trivialWorld "").code = 404 :=
  (status_passthrough_split 404 (by decide)).1 (by decide) none ⟨"B", "D", ""⟩ none
    false ActionType.UPDATE_AND_BOOT trivialWorld ""

/-- C10: calling `CheckForOTAUpdate` with a NULL `CurrentVersion` gives
exactly the same result as calling it with the empty string: line 269
totalizes the pointer to `""` before any comparison touches it. -/
theorem null_current_version_like_empty (manifestCode : Int)
    (parsed : Option (List ConfigEntry)) (id : DeviceIdentity) (dg : Bool)
    (action : ActionType) (world : OTAWorld) (cv₀ : String) :
    CheckForOTAUpdate manifestCode parsed id none dg action world cv₀ =
      CheckForOTAUpdate manifestCode parsed id (some "") dg action world cv₀ := rfl

end ESP32OTAPull
